import Mathlib

/-!
Verification development for `proxy_switcher.py` (clash-verge-proxy-switcher).

The Python source is shallowly embedded: strings are lists of characters,
Python/JSON values are the inductive `PyVal`, the stateful commands are
modelled as pure functions from their inputs (parsed API responses, the
completion order of the thread pool, the registry document) to the value
they compute and the list of write actions they issue.
-/

/-- Python strings are modelled as lists of characters. -/
abbrev Str := List Char

/-- Python / JSON values as produced by `json.loads`, plus `None`.
(Floating-point numbers are below the granularity of this model; none of
the verified properties depend on them.) -/
inductive PyVal where
  | vNone
  | vBool (b : Bool)
  | vInt (n : Int)
  | vStr (s : Str)
  | vList (xs : List PyVal)
  | vDict (entries : List (Str × PyVal))

/-- Python truthiness (`bool(x)`): `None`, `False`, `0`, and empty
containers are falsy. -/
def pyTruthy : PyVal → Bool
  | .vNone => false
  | .vBool b => b
  | .vInt n => n != 0
  | .vStr s => !s.isEmpty
  | .vList xs => !xs.isEmpty
  | .vDict entries => !entries.isEmpty

/-- Python dict lookup `d.get(k)` on a dict modelled as an association
list (Python dicts have unique keys; the first binding wins). -/
def dictGet (entries : List (Str × PyVal)) (k : Str) : Option PyVal :=
  match entries with
  | [] => none
  | (k', v) :: rest => if k' = k then some v else dictGet rest k

/-- `INFO_KEYWORDS` from line 48 of the source: names containing these
substrings are info-only rows, not real proxies. -/
def INFO_KEYWORDS : List Str :=
  [("剩余流量").data, ("距离下次").data, ("套餐到期").data,
   ("过期时间").data, ("到期时间").data, ("官网").data]

/-- Python substring test `needle in hay` on strings. -/
def strContains (hay needle : Str) : Bool :=
  match hay with
  | [] => needle.isEmpty
  | _ :: t => needle.isPrefixOf hay || strContains t needle

/-- The filter `any(kw in name for kw in INFO_KEYWORDS)` used at lines
103, 170, 249 and 290 of the source. -/
def isInfoName (name : Str) : Bool :=
  INFO_KEYWORDS.any (fun kw => strContains name kw)

/-- The tuple of reserved selector/meta kinds appearing at lines 169,
248 and 300 of the source. -/
def RESERVED_TYPES : List Str :=
  [("Selector").data, ("Direct").data, ("Reject").data,
   ("RejectDrop").data, ("Pass").data, ("Compatible").data]

/-- The node classifier used on the daemon's proxy listing (lines
167-171 of the source, for an entry whose declared type is present as a
string): the type is not reserved and the name carries no informational
keyword. -/
def is_real_node (name ty : Str) : Bool :=
  !(RESERVED_TYPES.contains ty) && !(isInfoName name)

/-- The per-entry filter of `parse_profile_nodes` (lines 101-104 of the
source): an entry of a profile's backing file is kept iff its name
carries no informational keyword.  The declared type is recorded but not
consulted. -/
def profile_node_keep (name : Str) : Bool :=
  !(isInfoName name)

/-- `parse_profile_nodes` (lines 94-113) restricted to the data the
claims consult: from the `proxies` list of a profile file, keep the
(name, type) entries whose name is not informational. -/
def parse_profile_nodes (entries : List (Str × Str)) : List (Str × Str) :=
  entries.filter (fun e => profile_node_keep e.1)

/-- The live-daemon view of testable nodes (the `real_nodes`
comprehension of `cmd_test`, lines 167-171), over (name, declared type)
entries. -/
def daemon_testable (entries : List (Str × Str)) : List (Str × Str) :=
  entries.filter (fun e => is_real_node e.1 e.2)

theorem strContains_iff (hay needle : Str) :
    strContains hay needle = true ↔ needle <:+: hay := by
  induction hay with
  | nil =>
    simp [strContains, List.infix_nil, List.isEmpty_iff]
  | cons c t ih =>
    simp only [strContains, Bool.or_eq_true, ih, List.infix_cons_iff,
      List.isPrefixOf_iff_prefix]

/-- The sort key comparison of `results.sort(key=lambda x: (x[2] < 0, x[2]))`
(line 184; line 313 is identical with `x[1]`): lexicographic order on the
pair (delay < 0, delay), with `False < True`. -/
def delayLe (d e : Int) : Bool :=
  (!(decide (d < 0)) && decide (e < 0)) ||
    ((decide (d < 0)) == (decide (e < 0)) && decide (d ≤ e))

/-- Comparison of two results by their delay component. -/
def resLe {α : Type} (x y : α × Int) : Bool :=
  delayLe x.2 y.2

/-- Stable insertion of a result into an already-sorted list: `a` is
placed before the first element that is not strictly below it, so
elements with a key equal to `a`'s stay behind `a` (which came earlier
in the collection order).  Together with `sortResults` this models
Python's stable `list.sort` with the key of lines 184/313. -/
def insertRes {α : Type} (a : α × Int) : List (α × Int) → List (α × Int)
  | [] => [a]
  | b :: bs =>
    if resLe b a && !(resLe a b) then b :: insertRes a bs else a :: b :: bs

/-- Stable sort of a probe-result list by the key `(delay < 0, delay)`
of lines 184/313.  A stable sort is extensionally determined by the key
order plus stability, so this insertion sort computes exactly what
Python's stable `list.sort` computes. -/
def sortResults {α : Type} : List (α × Int) → List (α × Int)
  | [] => []
  | a :: as => insertRes a (sortResults as)

theorem delayLe_iff (d e : Int) :
    delayLe d e = true ↔ ((¬ d < 0 ∧ e < 0) ∨ ((d < 0 ↔ e < 0) ∧ d ≤ e)) := by
  simp only [delayLe, Bool.or_eq_true, Bool.and_eq_true, Bool.not_eq_true',
    beq_iff_eq, decide_eq_true_eq, decide_eq_false_iff_not, decide_eq_decide]

theorem delayLe_total (d e : Int) : delayLe d e = true ∨ delayLe e d = true := by
  rw [delayLe_iff, delayLe_iff]; omega

theorem delayLe_trans {d e f : Int} (h1 : delayLe d e = true)
    (h2 : delayLe e f = true) : delayLe d f = true := by
  rw [delayLe_iff] at *; omega

theorem delayLe_refl (d : Int) : delayLe d d = true := by
  rw [delayLe_iff]; omega

theorem resLe_of_eq_delay {α : Type} {x y : α × Int} (h : x.2 = y.2) :
    resLe x y = true := by
  simp [resLe, h, delayLe_refl]

theorem delayLe_order {d e : Int} (h : delayLe d e = true) :
    (d < 0 → e < 0) ∧ (0 ≤ d → 0 ≤ e → d ≤ e) := by
  rw [delayLe_iff] at h; omega

theorem insertRes_perm {α : Type} (a : α × Int) (l : List (α × Int)) :
    (insertRes a l).Perm (a :: l) := by
  induction l with
  | nil => simp [insertRes]
  | cons b bs ih =>
    by_cases h : (resLe b a && !(resLe a b)) = true
    · simp only [insertRes, h, if_pos]
      exact (ih.cons b).trans (List.Perm.swap a b bs)
    · simp [insertRes, h]

theorem sortResults_perm {α : Type} (rs : List (α × Int)) :
    (sortResults rs).Perm rs := by
  induction rs with
  | nil => simp [sortResults]
  | cons a as ih =>
    exact (insertRes_perm a (sortResults as)).trans (ih.cons a)

theorem insertRes_pairwise {α : Type} {a : α × Int} {l : List (α × Int)}
    (h : l.Pairwise (fun x y => resLe x y = true)) :
    (insertRes a l).Pairwise (fun x y => resLe x y = true) := by
  induction l with
  | nil => simp [insertRes]
  | cons b bs ih =>
    rcases List.pairwise_cons.mp h with ⟨hb, hbs⟩
    by_cases hc : (resLe b a && !(resLe a b)) = true
    · rcases Bool.and_eq_true_iff.mp hc with ⟨hba, hnab⟩
      simp only [insertRes, hc, if_pos]
      refine List.pairwise_cons.mpr ⟨?_, ih hbs⟩
      intro y hy
      rcases List.mem_cons.mp ((insertRes_perm a bs).mem_iff.mp hy) with rfl | hy'
      · exact hba
      · exact hb y hy'
    · simp only [insertRes, hc, if_neg, Bool.not_eq_true]
      have hab : resLe a b = true := by
        by_cases h2 : resLe a b = true
        · exact h2
        · rcases delayLe_total a.2 b.2 with h1 | h1
          · exact h1
          · exact absurd (Bool.and_eq_true_iff.mpr ⟨h1, by simp [h2]⟩) hc
      refine List.pairwise_cons.mpr ⟨?_, h⟩
      intro y hy
      rcases List.mem_cons.mp hy with rfl | hy'
      · exact hab
      · exact delayLe_trans hab (hb y hy')

theorem sortResults_pairwise {α : Type} (rs : List (α × Int)) :
    (sortResults rs).Pairwise (fun x y => resLe x y = true) := by
  induction rs with
  | nil => simp [sortResults]
  | cons a as ih => exact insertRes_pairwise ih

theorem insertRes_filter_key {α : Type} (a : α × Int) (l : List (α × Int))
    (k : Int) :
    (insertRes a l).filter (fun x => decide (x.2 = k)) =
      (if a.2 = k then [a] else []) ++ l.filter (fun x => decide (x.2 = k)) := by
  induction l with
  | nil =>
    by_cases h : a.2 = k <;> simp [insertRes, List.filter, h]
  | cons b bs ih =>
    by_cases hc : (resLe b a && !(resLe a b)) = true
    · rcases Bool.and_eq_true_iff.mp hc with ⟨hba, hnab⟩
      have hne : b.2 ≠ a.2 := by
        intro he
        have := resLe_of_eq_delay (x := a) (y := b) he.symm
        simp [this] at hnab
      simp only [insertRes, hc, if_pos]
      by_cases hb : b.2 = k
      · have hak : ¬ a.2 = k := fun h' => hne (hb.trans h'.symm)
        simp [List.filter, hb, hak, ih]
      · simp [List.filter, hb, ih]
    · simp only [insertRes, hc, if_neg, Bool.not_eq_true]
      by_cases ha : a.2 = k <;> by_cases hb : b.2 = k <;>
        simp [List.filter, ha, hb]

theorem sortResults_filter_key {α : Type} (rs : List (α × Int)) (k : Int) :
    (sortResults rs).filter (fun x => decide (x.2 = k)) =
      rs.filter (fun x => decide (x.2 = k)) := by
  induction rs with
  | nil => rfl
  | cons a as ih =>
    by_cases ha : a.2 = k <;>
      simp [sortResults, insertRes_filter_key, ha, List.filter, ih]

/-- Outcome of the underlying `urllib.request.urlopen` call inside
`api_request` (lines 56-69): a response with a status and (decoded)
body text, an `HTTPError` for a non-2xx status, or any other exception.
Byte-level transport is below the granularity of this model; bodies are
already-decoded text. -/
inductive HttpOutcome where
  | success (status : Nat) (body : Str)
  | httpError (code : Int) (body : Str)
  | exc (msg : Str)

/-- `api_request` (lines 56-69): `204` returns `None`; any other
successful status decodes the body with `json.loads` (passed in as the
`jsonLoads` oracle — a decode failure is caught by the bare
`except Exception` and becomes `{"error": str(e)}`); an `HTTPError`
becomes `{"error": e.code, "message": body}`; any other exception
becomes `{"error": str(e)}`. -/
def api_request (jsonLoads : Str → Except Str PyVal) : HttpOutcome → PyVal
  | .success status body =>
    if status = 204 then .vNone
    else
      match jsonLoads body with
      | .ok v => v
      | .error msg => .vDict [(("error").data, .vStr msg)]
  | .httpError code body =>
    .vDict [(("error").data, .vInt code), (("message").data, .vStr body)]
  | .exc msg => .vDict [(("error").data, .vStr msg)]

/-- Membership of the string constant in a Python list via `==`
(a non-string element never equals a string). -/
def listHasDelayStr (xs : List PyVal) : Bool :=
  xs.any (fun v =>
    match v with
    | .vStr s => decide (s = ("delay").data)
    | _ => false)

/-- `test_single_node_delay` (lines 116-122) applied to the value
`api_request` returned for the delay call.  The Python guard is
`if result and "delay" in result: return result["delay"]` and otherwise
`-1`.  On a truthy dict this looks up the key; on a truthy string or
list, `in` is substring/membership and a hit makes the subsequent
`result["delay"]` raise `TypeError`; on a truthy number or `True`, the
`in` operator itself raises `TypeError`.  An uncaught exception is
`Except.error ()`. -/
def test_single_node_delay (result : PyVal) : Except Unit PyVal :=
  if pyTruthy result then
    match result with
    | .vDict d =>
      match dictGet d (("delay").data) with
      | some v => .ok v
      | none => .ok (.vInt (-1))
    | .vStr s =>
      if strContains s (("delay").data) then .error () else .ok (.vInt (-1))
    | .vList xs =>
      if listHasDelayStr xs then .error () else .ok (.vInt (-1))
    | _ => .error ()
  else .ok (.vInt (-1))

/-- Decoded responses on which the delay probe raises an uncaught
`TypeError`: truthy non-containers, truthy strings containing
`"delay"`, and truthy lists containing the string `"delay"`. -/
def delayProbeCrashes (v : PyVal) : Bool :=
  pyTruthy v &&
    (match v with
     | .vDict _ => false
     | .vStr s => strContains s (("delay").data)
     | .vList xs => listHasDelayStr xs
     | _ => true)

/-- The probe value of a non-crashing response. -/
def delayOf (v : PyVal) : PyVal :=
  match test_single_node_delay v with
  | .ok r => r
  | .error _ => .vInt (-1)

/-- The collection loop of `cmd_test` (lines 175-181) and `cmd_best`
(lines 305-311): the thread pool yields futures in some completion
order (a permutation of the submitted names), and each completed
future's value — or its re-raised exception — is taken by
`future.result()`.  An exception from any future aborts the whole
round. -/
def collectResults (completionOrder : List Str) (response : Str → PyVal) :
    Except Unit (List (Str × PyVal)) :=
  match completionOrder with
  | [] => .ok []
  | n :: rest =>
    match test_single_node_delay (response n) with
    | .error e => .error e
    | .ok v =>
      match collectResults rest response with
      | .error e => .error e
      | .ok vs => .ok ((n, v) :: vs)

/-- The check `info.get("type") not in ("Selector", "Direct", "Reject",
"RejectDrop", "Pass", "Compatible")` of lines 169, 248 and 300: a
missing type (Python `None`) or a non-string type is not equal to any
reserved string, hence passes. -/
def typeNotReservedPy (t : Option PyVal) : Bool :=
  match t with
  | some (.vStr ty) => !(RESERVED_TYPES.contains ty)
  | _ => true

/-- Per-entry predicate of the `real_nodes` comprehension of `cmd_test`
(lines 167-171).  A non-dict proxy info value is modelled as passing
the type check (the daemon's listing maps names to objects). -/
def real_node_filter (name : Str) (info : PyVal) : Bool :=
  (match info with
   | .vDict d => typeNotReservedPy (dictGet d (("type").data))
   | _ => true) && !(isInfoName name)

/-- The guard of lines 161-163:
`if not result or "proxies" in result and not result["proxies"]`
(Python precedence: `(not result) or (("proxies" in result) and
(not result["proxies"]))`). -/
def cannot_fetch_proxies (result : PyVal) : Bool :=
  !(pyTruthy result) ||
    (match result with
     | .vDict d =>
       match dictGet d (("proxies").data) with
       | some v => !(pyTruthy v)
       | none => false
     | _ => false)

/-- The node-gathering phase of `cmd_test` (lines 160-171): on a
failed-looking listing it prints an error and returns (`none`);
otherwise it filters the `proxies` mapping down to real nodes. -/
def cmd_test_nodes (result : PyVal) : Option (List (Str × PyVal)) :=
  if cannot_fetch_proxies result then none
  else
    match result with
    | .vDict d =>
      match dictGet d (("proxies").data) with
      | some (.vDict proxies) =>
        some (proxies.filter (fun kv => real_node_filter kv.1 kv.2))
      | _ => none
    | _ => none

/-- The built-in sink names excluded at line 291. -/
def SINK_NAMES : List Str := [("DIRECT").data, ("REJECT").data, ("PASS").data]

/-- The `candidates` comprehension of `cmd_best` (lines 288-293). -/
def best_candidates (allMembers : List Str) : List Str :=
  allMembers.filter (fun n => !(isInfoName n) && !(SINK_NAMES.contains n))

/-- The `actual_nodes` loop of `cmd_best` (lines 296-301):
`pinfo = proxies["proxies"].get(name, {})` defaults a member missing
from the global listing to the empty dict, whose `.get("type")` is
`None` and therefore not a reserved kind. -/
def best_actual_nodes (allMembers : List Str) (proxyMap : List (Str × PyVal)) :
    List Str :=
  (best_candidates allMembers).filter (fun name =>
    match dictGet proxyMap name with
    | some (.vDict d) => typeNotReservedPy (dictGet d (("type").data))
    | some _ => true
    | none => true)

/-- The `available` list of `cmd_best` (line 314): the sorted results
restricted to non-negative delays. -/
def cmd_best_available (results : List (Str × Int)) : List (Str × Int) :=
  (sortResults results).filter (fun x => decide (0 ≤ x.2))

/-- The selection of `cmd_best` (lines 323-324): the head of
`available`, if any. -/
def cmd_best_decision (results : List (Str × Int)) : Option (Str × Int) :=
  (cmd_best_available results).head?

/-- The write actions `cmd_best` issues after probing (lines 323-332):
one PUT setting the group's `now` pointer when a node was selected,
nothing otherwise. -/
def cmd_best_writes (group : Str) (results : List (Str × Int)) :
    List (Str × Str) :=
  match cmd_best_decision results with
  | none => []
  | some (n, _) => [(group, n)]

/-- A remote profile as assembled by `get_remote_profiles`
(lines 77-91), restricted to the fields `cmd_switch_profile` reads. -/
structure Profile where
  uid : Str
  name : Str
  file : Str
  active : Bool
deriving DecidableEq

/-- Python `str.lower()`, character-wise. -/
def lowerStr (s : Str) : Str := s.map Char.toLower

/-- The match test of line 210:
`target.lower() in p["name"].lower() or target.lower() in p["uid"].lower()`. -/
def profileMatches (target : Str) (p : Profile) : Bool :=
  strContains (lowerStr p.name) (lowerStr target) ||
    strContains (lowerStr p.uid) (lowerStr target)

/-- The three ways `cmd_switch_profile` can go (lines 205-234). -/
inductive SwitchOutcome where
  | notFound (listing : List Profile)
  | alreadyActive (p : Profile)
  | performSwitch (p : Profile)
deriving DecidableEq

/-- The control flow of `cmd_switch_profile` (lines 205-224): first
match wins; no match prints the full profile listing and returns;
an already-active match returns; otherwise the switch is performed. -/
def cmd_switch_profile (profiles : List Profile) (target : Str) : SwitchOutcome :=
  match profiles.find? (fun p => profileMatches target p) with
  | none => .notFound profiles
  | some p => if p.active then .alreadyActive p else .performSwitch p

/-- The two kinds of mutation `cmd_switch_profile` can issue: the
registry-file rewrite (lines 227-230) and the daemon reload PUT
(lines 233-234). -/
inductive WriteAction where
  | registryWrite (uid : Str)
  | daemonReload (file : Str)
deriving DecidableEq

/-- The writes `cmd_switch_profile` issues: none on the not-found and
already-active paths, and exactly the registry write followed by the
reload on the switch path. -/
def switch_writes (profiles : List Profile) (target : Str) : List WriteAction :=
  match cmd_switch_profile profiles target with
  | .notFound _ => []
  | .alreadyActive _ => []
  | .performSwitch p => [.registryWrite p.uid, .daemonReload p.file]

/-- Python dict assignment `data[k] = v` on a mapping modelled as an
association list: an existing binding is replaced in place, a new key
is appended at the end (insertion order preserved, as Python dicts
do). -/
def assocSet (entries : List (Str × PyVal)) (k : Str) (v : PyVal) :
    List (Str × PyVal) :=
  match entries with
  | [] => [(k, v)]
  | (k', v') :: rest =>
    if k' = k then (k, v) :: rest else (k', v') :: assocSet rest k v

/-- The persisting step of the profile switch (lines 227-230):
`data = load_profiles_yaml(); data["current"] = match["uid"]` followed
by `yaml.dump(data, f)`.  The YAML load/dump pair is an external
collaborator the spec requires to be round-trippable, so it is modelled
as the identity on the parsed mapping; the step itself only rebinds the
`current` key. -/
def set_active (data : List (Str × PyVal)) (uid : Str) : List (Str × PyVal) :=
  assocSet data (("current").data) (.vStr uid)

theorem probe_error_iff (v : PyVal) :
    test_single_node_delay v = Except.error () ↔ delayProbeCrashes v = true := by
  cases v with
  | vNone => simp [test_single_node_delay, delayProbeCrashes, pyTruthy]
  | vBool b => cases b <;> simp [test_single_node_delay, delayProbeCrashes, pyTruthy]
  | vInt n =>
    by_cases h : (n != 0) = true <;>
      simp [test_single_node_delay, delayProbeCrashes, pyTruthy, h]
  | vStr s =>
    by_cases h1 : (!s.isEmpty) = true <;>
      by_cases h2 : strContains s (("delay").data) = true <;>
        simp [test_single_node_delay, delayProbeCrashes, pyTruthy, h1, h2]
  | vList xs =>
    by_cases h1 : (!xs.isEmpty) = true <;>
      by_cases h2 : listHasDelayStr xs = true <;>
        simp [test_single_node_delay, delayProbeCrashes, pyTruthy, h1, h2]
  | vDict entries =>
    by_cases h1 : (!entries.isEmpty) = true <;>
      cases hd : dictGet entries (("delay").data) <;>
        simp [test_single_node_delay, delayProbeCrashes, pyTruthy, h1, hd]

theorem probe_ok_of_no_crash {v : PyVal} (h : delayProbeCrashes v = false) :
    test_single_node_delay v = Except.ok (delayOf v) := by
  rcases hres : test_single_node_delay v with e | r
  · cases e
    exact absurd ((probe_error_iff v).mp hres) (by simp [h])
  · simp [delayOf, hres]

theorem probe_ok_shape {v r : PyVal}
    (h : test_single_node_delay v = Except.ok r) :
    r = PyVal.vInt (-1) ∨
      ∃ entries, v = PyVal.vDict entries ∧
        dictGet entries (("delay").data) = some r := by
  by_cases ht : pyTruthy v = true
  · cases v with
    | vDict entries =>
      cases hd : dictGet entries (("delay").data) with
      | none =>
        left
        simp only [test_single_node_delay, ht, if_pos, hd, Except.ok.injEq] at h
        exact h.symm
      | some w =>
        right
        refine ⟨entries, rfl, ?_⟩
        simp only [test_single_node_delay, ht, if_pos, hd, Except.ok.injEq] at h
        rw [hd, h]
    | vStr s =>
      left
      by_cases h2 : strContains s (("delay").data) = true
      · simp [test_single_node_delay, ht, h2] at h
      · simp [test_single_node_delay, ht, h2] at h
        exact h.symm
    | vList xs =>
      left
      by_cases h2 : listHasDelayStr xs = true
      · simp [test_single_node_delay, ht, h2] at h
      · simp [test_single_node_delay, ht, h2] at h
        exact h.symm
    | vNone => simp [pyTruthy] at ht
    | vBool b =>
      cases b with
      | false => simp [pyTruthy] at ht
      | true => simp [test_single_node_delay, pyTruthy] at h
    | vInt n =>
      simp [test_single_node_delay, ht] at h
  · left
    simp only [test_single_node_delay, ht, if_neg, Bool.not_eq_true,
      Except.ok.injEq] at h
    exact h.symm

theorem collectResults_ok (order : List Str) (response : Str → PyVal)
    (h : ∀ n ∈ order, delayProbeCrashes (response n) = false) :
    collectResults order response =
      Except.ok (order.map (fun n => (n, delayOf (response n)))) := by
  induction order with
  | nil => rfl
  | cons n rest ih =>
    have h1 : test_single_node_delay (response n) = .ok (delayOf (response n)) :=
      probe_ok_of_no_crash (h n (List.mem_cons_self n rest))
    have h2 := ih (fun m hm => h m (List.mem_cons_of_mem n hm))
    simp [collectResults, h1, h2]

/-- C1: the claim that the displayed result sequence is sorted with
available-before-unreachable, ascending delay among available, and ties
broken by the original name ordering (hence a deterministic output for a
fixed set of per-name outcomes) is false: the sort of lines 184/313 is a
stable sort over the completion order, so two runs with the same
per-name outcomes but different completion orders display equal-delay
results in different orders. -/
theorem C1_counterexample_tie_order :
    List.Perm [((("A").data), (100 : Int)), ((("B").data), (100 : Int))]
        [((("B").data), (100 : Int)), ((("A").data), (100 : Int))] ∧
      sortResults [((("A").data), (100 : Int)), ((("B").data), (100 : Int))] ≠
        sortResults [((("B").data), (100 : Int)), ((("A").data), (100 : Int))] := by
  constructor
  · exact List.Perm.swap ((("B").data), (100 : Int)) ((("A").data), (100 : Int)) []
  · decide

/-- C1 (amended): for every collection order, the sorted sequence is a
permutation of the collected results in which every available result
precedes every unreachable one and available delays ascend; results with
equal delay keep their collection (completion) order — the output is
deterministic only for a fixed collection order, not for a fixed set of
per-name outcomes. -/
theorem C1_sorted_available_first_stable :
    ∀ (rs : List (Str × Int)),
      (sortResults rs).Perm rs ∧
      (sortResults rs).Pairwise
        (fun x y => (x.2 < 0 → y.2 < 0) ∧ (0 ≤ x.2 → 0 ≤ y.2 → x.2 ≤ y.2)) ∧
      (∀ d, (sortResults rs).filter (fun x => decide (x.2 = d)) =
        rs.filter (fun x => decide (x.2 = d))) := by
  intro rs
  refine ⟨sortResults_perm rs, ?_, fun d => sortResults_filter_key rs d⟩
  exact (sortResults_pairwise rs).imp (fun h => delayLe_order h)

/-- C2: the claim that one node's malformed response never aborts
collection and never surfaces as an exception is false: a delay
response whose body decodes to a truthy non-container (here the JSON
number 5) makes `"delay" in result` raise `TypeError`, which
`future.result()` re-raises into the collection loop. -/
theorem C2_counterexample_numeric_body_aborts :
    collectResults [("A").data] (fun _ => PyVal.vInt 5) = Except.error () := rfl

/-- C2 (amended): for every probe round over N names in which no
per-name decoded response is of a crashing shape (a truthy
non-container, a truthy string containing "delay", or a truthy list
containing the string "delay"), the collected sequence has exactly one
entry per input name — the response's delay field when the response is
a truthy object carrying one, the sentinel -1 otherwise — and no
exception reaches the caller. -/
theorem C2_collection_complete_when_no_crash :
    ∀ (names completionOrder : List Str) (response : Str → PyVal),
      completionOrder.Perm names →
      (∀ n ∈ names, delayProbeCrashes (response n) = false) →
      collectResults completionOrder response =
        Except.ok (completionOrder.map (fun n => (n, delayOf (response n)))) ∧
      (completionOrder.map (fun n => (n, delayOf (response n)))).length =
        names.length ∧
      ∀ n ∈ names,
        delayOf (response n) = PyVal.vInt (-1) ∨
        ∃ entries, response n = PyVal.vDict entries ∧
          dictGet entries (("delay").data) = some (delayOf (response n)) := by
  intro names order response hperm hok
  have hall : ∀ n ∈ order, delayProbeCrashes (response n) = false :=
    fun n hn => hok n (hperm.mem_iff.mp hn)
  refine ⟨collectResults_ok order response hall, ?_, ?_⟩
  · simp [hperm.length_eq]
  · intro n hn
    exact probe_ok_shape (probe_ok_of_no_crash (hok n hn))

theorem C2_collection_witness :
    collectResults [("A").data, ("B").data]
        (fun n => if n = ("A").data
          then PyVal.vDict [(("delay").data, PyVal.vInt 42)]
          else PyVal.vNone) =
      Except.ok
        ([("A").data, ("B").data].map
          (fun n => (n, delayOf (if n = ("A").data
            then PyVal.vDict [(("delay").data, PyVal.vInt 42)]
            else PyVal.vNone)))) :=
  (C2_collection_complete_when_no_crash [("A").data, ("B").data]
    [("A").data, ("B").data]
    (fun n => if n = ("A").data
      then PyVal.vDict [(("delay").data, PyVal.vInt 42)]
      else PyVal.vNone)
    (List.Perm.refl _) (by decide)).1

/-- C3: the classifier of lines 167-171 admits a (name, declared type)
entry iff the declared type is none of the reserved kinds and the name
contains no configured informational substring; a declared type of
"Selector" is rejected for every name, and an informational marker in
the name rejects the entry for every declared type. -/
theorem C3_is_real_node_characterization :
    ∀ (name ty : Str),
      (is_real_node name ty = true ↔
        ty ∉ RESERVED_TYPES ∧ ∀ kw ∈ INFO_KEYWORDS, ¬ kw <:+: name) ∧
      is_real_node name (("Selector").data) = false ∧
      (∀ kw ∈ INFO_KEYWORDS, kw <:+: name → is_real_node name ty = false) := by
  intro name ty
  refine ⟨?_, ?_, ?_⟩
  · simp [is_real_node, isInfoName, List.any_eq_true, strContains_iff]
  · have hsel : (("Selector").data) ∈ RESERVED_TYPES := by decide
    simp [is_real_node, hsel]
  · intro kw hkw hinf
    have : isInfoName name = true := by
      simp only [isInfoName, List.any_eq_true]
      exact ⟨kw, hkw, (strContains_iff name kw).mpr hinf⟩
    simp [is_real_node, this]

theorem C3_classifier_witness :
    is_real_node (("到期时间x").data) (("ss").data) = false :=
  (C3_is_real_node_characterization (("到期时间x").data) (("ss").data)).2.2
    (("到期时间").data) (by decide) (by decide)

/-- C4: the claim that the profile-file view and the live-daemon view
apply the same testability predicate is false: `parse_profile_nodes`
(lines 101-104) filters only on informational keywords, so an entry
declared with the reserved type "Selector" is admitted by the
profile-file view but rejected by the daemon view of lines 167-171. -/
theorem C4_counterexample_profile_daemon_disagree :
    ((("X").data, ("Selector").data) ∈
        parse_profile_nodes [((("X").data, ("Selector").data))]) ∧
      ((("X").data, ("Selector").data) ∉
        daemon_testable [((("X").data, ("Selector").data))]) := by
  constructor
  · decide
  · decide

/-- C4 (amended): the two views agree on every entry whose declared
type is not one of the reserved kinds; the profile-file view applies
only the informational-name filter, so the views can disagree only on
entries of reserved declared type. -/
theorem C4_views_agree_off_reserved :
    ∀ (entries : List (Str × Str)) (name ty : Str), ty ∉ RESERVED_TYPES →
      ((name, ty) ∈ parse_profile_nodes entries ↔
        (name, ty) ∈ daemon_testable entries) := by
  intro entries name ty hty
  have hpred : is_real_node name ty = profile_node_keep name := by
    simp [is_real_node, profile_node_keep, hty]
  simp [parse_profile_nodes, daemon_testable, List.mem_filter, hpred]

theorem C4_views_witness :
    (((("N1").data), (("ss").data)) ∈
        parse_profile_nodes [(((("N1").data), (("ss").data)))]) ↔
      (((("N1").data), (("ss").data)) ∈
        daemon_testable [(((("N1").data), (("ss").data)))]) :=
  C4_views_agree_off_reserved [(((("N1").data), (("ss").data)))]
    (("N1").data) (("ss").data) (by decide)

/-- C5: switch-profile issues no write unless the query selects a
profile that is not already active: with no case-insensitive substring
match on any display name or uid it reports not-found listing all known
profiles and writes nothing; with the selected (first) match already
active it is a no-op; and any write implies the selected match was not
active, in which case exactly the registry rewrite and the daemon
reload are issued. -/
theorem C5_switch_profile_guarded_writes :
    ∀ (profiles : List Profile) (target : Str),
      ((∀ p ∈ profiles, profileMatches target p = false) →
        cmd_switch_profile profiles target = SwitchOutcome.notFound profiles ∧
        switch_writes profiles target = []) ∧
      (∀ p, profiles.find? (fun q => profileMatches target q) = some p →
        p.active = true →
        cmd_switch_profile profiles target = SwitchOutcome.alreadyActive p ∧
        switch_writes profiles target = []) ∧
      (switch_writes profiles target ≠ [] →
        ∃ p, profiles.find? (fun q => profileMatches target q) = some p ∧
          p.active = false ∧
          cmd_switch_profile profiles target = SwitchOutcome.performSwitch p ∧
          switch_writes profiles target =
            [WriteAction.registryWrite p.uid, WriteAction.daemonReload p.file]) := by
  intro profiles target
  refine ⟨?_, ?_, ?_⟩
  · intro h
    have hf : profiles.find? (fun q => profileMatches target q) = none :=
      List.find?_eq_none.mpr (fun x hx => by simp [h x hx])
    exact ⟨by simp [cmd_switch_profile, hf],
      by simp [switch_writes, cmd_switch_profile, hf]⟩
  · intro p hf hact
    exact ⟨by simp [cmd_switch_profile, hf, hact],
      by simp [switch_writes, cmd_switch_profile, hf, hact]⟩
  · intro hw
    cases hfind : profiles.find? (fun q => profileMatches target q) with
    | none => exact absurd (by simp [switch_writes, cmd_switch_profile, hfind]) hw
    | some p =>
      cases hact : p.active with
      | true =>
        exact absurd (by simp [switch_writes, cmd_switch_profile, hfind, hact]) hw
      | false =>
        exact ⟨p, rfl, hact, by simp [cmd_switch_profile, hfind, hact],
          by simp [switch_writes, cmd_switch_profile, hfind, hact]⟩

theorem C5_switch_witness :
    (cmd_switch_profile
        [Profile.mk (("a1").data) (("Home").data) (("a1.yaml").data) true,
         Profile.mk (("b2").data) (("Work").data) (("b2.yaml").data) false]
        (("zzz").data) =
      SwitchOutcome.notFound
        [Profile.mk (("a1").data) (("Home").data) (("a1.yaml").data) true,
         Profile.mk (("b2").data) (("Work").data) (("b2.yaml").data) false] ∧
      switch_writes
        [Profile.mk (("a1").data) (("Home").data) (("a1.yaml").data) true,
         Profile.mk (("b2").data) (("Work").data) (("b2.yaml").data) false]
        (("zzz").data) = []) ∧
      (cmd_switch_profile
          [Profile.mk (("a1").data) (("Home").data) (("a1.yaml").data) true,
           Profile.mk (("b2").data) (("Work").data) (("b2.yaml").data) false]
          (("home").data) =
        SwitchOutcome.alreadyActive
          (Profile.mk (("a1").data) (("Home").data) (("a1.yaml").data) true) ∧
        switch_writes
          [Profile.mk (("a1").data) (("Home").data) (("a1.yaml").data) true,
           Profile.mk (("b2").data) (("Work").data) (("b2.yaml").data) false]
          (("home").data) = []) :=
  ⟨(C5_switch_profile_guarded_writes
      [Profile.mk (("a1").data) (("Home").data) (("a1.yaml").data) true,
       Profile.mk (("b2").data) (("Work").data) (("b2.yaml").data) false]
      (("zzz").data)).1 (by decide),
   (C5_switch_profile_guarded_writes
      [Profile.mk (("a1").data) (("Home").data) (("a1.yaml").data) true,
       Profile.mk (("b2").data) (("Work").data) (("b2.yaml").data) false]
      (("home").data)).2.1
      (Profile.mk (("a1").data) (("Home").data) (("a1.yaml").data) true)
      (by decide) rfl⟩

theorem assocSet_lookup_self (entries : List (Str × PyVal)) (k : Str) (v : PyVal) :
    dictGet (assocSet entries k v) k = some v := by
  induction entries with
  | nil => simp [assocSet, dictGet]
  | cons e rest ih =>
    by_cases h : e.1 = k
    · simp [assocSet, h, dictGet]
    · simp [assocSet, h, dictGet, ih]

theorem assocSet_lookup_ne (entries : List (Str × PyVal)) (k j : Str)
    (v : PyVal) (hne : j ≠ k) :
    dictGet (assocSet entries k v) j = dictGet entries j := by
  have hkj : ¬ k = j := fun hc => hne hc.symm
  induction entries with
  | nil => simp [assocSet, dictGet, hkj]
  | cons e rest ih =>
    by_cases h : e.1 = k
    · have h3 : ¬ e.1 = j := fun hc => hkj (h.symm.trans hc)
      simp [assocSet, h, dictGet, hkj, h3]
    · by_cases h4 : e.1 = j <;> simp [assocSet, h, dictGet, h4, hne, ih]

theorem assocSet_filter_ne (entries : List (Str × PyVal)) (k : Str) (v : PyVal) :
    (assocSet entries k v).filter (fun kv => !(decide (kv.1 = k))) =
      entries.filter (fun kv => !(decide (kv.1 = k))) := by
  induction entries with
  | nil => simp [assocSet, List.filter]
  | cons e rest ih =>
    by_cases h : e.1 = k
    · simp [assocSet, h, List.filter]
    · simp [assocSet, h, List.filter, ih]

/-- C6: the persisting step of switch-profile changes only the
registry's `current` binding: afterwards `current` maps to the new uid,
while the sub-document at every other key — `items` with all its
profiles and fields included — is exactly what it was, in the same
order. -/
theorem C6_set_active_frame :
    ∀ (data : List (Str × PyVal)) (uid : Str),
      dictGet (set_active data uid) (("current").data) =
        some (PyVal.vStr uid) ∧
      (set_active data uid).filter
          (fun kv => !(decide (kv.1 = ("current").data))) =
        data.filter (fun kv => !(decide (kv.1 = ("current").data))) ∧
      ∀ k, k ≠ ("current").data →
        dictGet (set_active data uid) k = dictGet data k := by
  intro data uid
  exact ⟨assocSet_lookup_self data (("current").data) (PyVal.vStr uid),
    assocSet_filter_ne data (("current").data) (PyVal.vStr uid),
    fun k hk => assocSet_lookup_ne data (("current").data) k (PyVal.vStr uid) hk⟩

theorem C6_frame_witness :
    dictGet
        (set_active
          [(("current").data, PyVal.vStr (("a1").data)),
           (("items").data, PyVal.vList [PyVal.vStr (("a1").data)])]
          (("b2").data))
        (("items").data) =
      dictGet
        [(("current").data, PyVal.vStr (("a1").data)),
         (("items").data, PyVal.vList [PyVal.vStr (("a1").data)])]
        (("items").data) :=
  (C6_set_active_frame
      [(("current").data, PyVal.vStr (("a1").data)),
       (("items").data, PyVal.vList [PyVal.vStr (("a1").data)])]
      (("b2").data)).2.2 (("items").data) (by decide)

/-- Models `json.loads` on the body "null": the decoded value is JSON
null, i.e. Python `None`. -/
def jsonLoadsNull : Str → Except Str PyVal := fun _ => Except.ok PyVal.vNone

/-- C7: the claim that the 204 (success-no-content) value is distinct
from every decoded success body is false: a 200 response whose body is
"null" decodes to Python `None`, the very value returned for 204, so a
caller cannot distinguish the two. -/
theorem C7_counterexample_null_body :
    api_request jsonLoadsNull (HttpOutcome.success 200 (("null").data)) =
        PyVal.vNone ∧
      api_request jsonLoadsNull (HttpOutcome.success 204 []) = PyVal.vNone :=
  ⟨rfl, rfl⟩

/-- C7 (amended): `api_request` always returns a value; every transport
failure, non-2xx status, or body-decode failure yields a dict carrying
an "error" key; 204 yields `None`, which differs from every such error
envelope; a decoded success body is returned as-is, and it differs from
the 204 value `None` except when the body decodes to JSON null, which
yields that same `None`. -/
theorem C7_api_request_three_way :
    ∀ (jsonLoads : Str → Except Str PyVal) (o : HttpOutcome),
      (∀ body, o = HttpOutcome.success 204 body →
        api_request jsonLoads o = PyVal.vNone) ∧
      (∀ code body, o = HttpOutcome.httpError code body →
        ∃ es, api_request jsonLoads o = PyVal.vDict es ∧
          (dictGet es (("error").data)).isSome = true ∧
          api_request jsonLoads o ≠ PyVal.vNone) ∧
      (∀ msg, o = HttpOutcome.exc msg →
        ∃ es, api_request jsonLoads o = PyVal.vDict es ∧
          (dictGet es (("error").data)).isSome = true ∧
          api_request jsonLoads o ≠ PyVal.vNone) ∧
      (∀ status body msg, o = HttpOutcome.success status body → status ≠ 204 →
        jsonLoads body = Except.error msg →
        ∃ es, api_request jsonLoads o = PyVal.vDict es ∧
          (dictGet es (("error").data)).isSome = true ∧
          api_request jsonLoads o ≠ PyVal.vNone) ∧
      (∀ status body v, o = HttpOutcome.success status body → status ≠ 204 →
        jsonLoads body = Except.ok v → api_request jsonLoads o = v) ∧
      (∀ status body v, o = HttpOutcome.success status body → status ≠ 204 →
        jsonLoads body = Except.ok v → v ≠ PyVal.vNone →
        api_request jsonLoads o ≠ PyVal.vNone) := by
  intro jsonLoads o
  refine ⟨?_, ?_, ?_, ?_, ?_, ?_⟩
  · rintro body rfl
    simp [api_request]
  · rintro code body rfl
    refine ⟨_, rfl, rfl, ?_⟩
    intro hcontra
    exact PyVal.noConfusion hcontra
  · rintro msg rfl
    refine ⟨_, rfl, rfl, ?_⟩
    intro hcontra
    exact PyVal.noConfusion hcontra
  · rintro status body msg rfl hne hdec
    have happ : api_request jsonLoads (HttpOutcome.success status body) =
        PyVal.vDict [(("error").data, PyVal.vStr msg)] := by
      simp [api_request, hne, hdec]
    refine ⟨[(("error").data, PyVal.vStr msg)], happ, rfl, ?_⟩
    rw [happ]
    exact fun hcontra => PyVal.noConfusion hcontra
  · rintro status body v rfl hne hdec
    simp [api_request, hne, hdec]
  · rintro status body v rfl hne hdec hv
    have happ : api_request jsonLoads (HttpOutcome.success status body) = v := by
      simp [api_request, hne, hdec]
    rw [happ]
    exact hv

theorem C7_api_witness :
    ∃ es, api_request jsonLoadsNull (HttpOutcome.httpError 404 (("gone").data)) =
        PyVal.vDict es ∧
      (dictGet es (("error").data)).isSome = true ∧
      api_request jsonLoadsNull (HttpOutcome.httpError 404 (("gone").data)) ≠
        PyVal.vNone :=
  (C7_api_request_three_way jsonLoadsNull
    (HttpOutcome.httpError 404 (("gone").data))).2.1 404 (("gone").data) rfl

/-- C8: after a probe round, `cmd_best` issues no write when every
result is unreachable, and otherwise issues exactly one write whose
target is a probed node with minimal delay among the non-negative
(available) results — an unreachable node is never selected. -/
theorem C8_best_write_policy :
    ∀ (group : Str) (results : List (Str × Int)),
      ((∀ r ∈ results, r.2 < 0) → cmd_best_writes group results = []) ∧
      (∀ x ∈ results, 0 ≤ x.2 → (cmd_best_writes group results).length = 1) ∧
      (∀ n d, cmd_best_decision results = some (n, d) →
        0 ≤ d ∧ (n, d) ∈ results ∧
        cmd_best_writes group results = [(group, n)] ∧
        ∀ y ∈ results, 0 ≤ y.2 → d ≤ y.2) := by
  intro group results
  refine ⟨?_, ?_, ?_⟩
  · intro h
    have hav : cmd_best_available results = [] := by
      apply List.filter_eq_nil_iff.mpr
      intro a ha
      have ham : a ∈ results := (sortResults_perm results).mem_iff.mp ha
      simp [not_le.mpr (h a ham)]
    simp [cmd_best_writes, cmd_best_decision, hav]
  · intro x hx hx0
    have hmem : x ∈ cmd_best_available results :=
      List.mem_filter.mpr
        ⟨(sortResults_perm results).mem_iff.mpr hx, by simp [hx0]⟩
    cases hav : cmd_best_available results with
    | nil => rw [hav] at hmem; cases hmem
    | cons a rest => simp [cmd_best_writes, cmd_best_decision, hav]
  · intro n d hdec
    cases hav : cmd_best_available results with
    | nil =>
      rw [cmd_best_decision, hav] at hdec
      cases hdec
    | cons a rest =>
      rw [cmd_best_decision, hav] at hdec
      have ha : a = (n, d) := by
        simpa using hdec
      subst ha
      have hmem : (n, d) ∈ cmd_best_available results := by
        rw [hav]; exact List.mem_cons_self _ _
      have hfilt := List.mem_filter.mp hmem
      have hd0 : 0 ≤ d := by simpa using hfilt.2
      refine ⟨hd0, (sortResults_perm results).mem_iff.mp hfilt.1, ?_, ?_⟩
      · simp [cmd_best_writes, cmd_best_decision, hav]
      · intro y hy hy0
        have hymem : y ∈ cmd_best_available results :=
          List.mem_filter.mpr
            ⟨(sortResults_perm results).mem_iff.mpr hy, by simp [hy0]⟩
        have hpair : (cmd_best_available results).Pairwise
            (fun x y => resLe x y = true) :=
          List.Pairwise.filter _ (sortResults_pairwise results)
        rw [hav] at hpair hymem
        rcases List.mem_cons.mp hymem with rfl | hy'
        · exact le_refl d
        · exact (delayLe_order ((List.pairwise_cons.mp hpair).1 y hy')).2 hd0 hy0

theorem C8_best_witness :
    0 ≤ (50 : Int) ∧
      ((("B").data), (50 : Int)) ∈
        [((("A").data), (-1 : Int)), ((("B").data), (50 : Int)),
         ((("C").data), (120 : Int))] ∧
      cmd_best_writes (("Proxies").data)
          [((("A").data), (-1 : Int)), ((("B").data), (50 : Int)),
           ((("C").data), (120 : Int))] =
        [((("Proxies").data), (("B").data))] ∧
      ∀ y ∈ [((("A").data), (-1 : Int)), ((("B").data), (50 : Int)),
          ((("C").data), (120 : Int))], 0 ≤ y.2 → (50 : Int) ≤ y.2 :=
  (C8_best_write_policy (("Proxies").data)
    [((("A").data), (-1 : Int)), ((("B").data), (50 : Int)),
     ((("C").data), (120 : Int))]).2.2 (("B").data) 50 (by decide)

/-- C9: the guard of lines 161-163 evaluates identically on a failed
call (a falsy result such as `None`) and on a successful call whose
`proxies` object is empty, so `cmd_test` reports "cannot fetch proxies"
and probes nothing in both cases, while a successful non-empty listing
passes the guard and is filtered to real nodes. -/
theorem C9_empty_listing_treated_as_failure :
    cannot_fetch_proxies
        (PyVal.vDict [(("proxies").data, PyVal.vDict [])]) = true ∧
      cannot_fetch_proxies PyVal.vNone = true ∧
      cmd_test_nodes (PyVal.vDict [(("proxies").data, PyVal.vDict [])]) = none ∧
      cmd_test_nodes PyVal.vNone = none ∧
      cannot_fetch_proxies
        (PyVal.vDict [(("proxies").data,
          PyVal.vDict [((("n1").data),
            PyVal.vDict [(("type").data, PyVal.vStr (("ss").data))])])]) =
        false ∧
      cmd_test_nodes
        (PyVal.vDict [(("proxies").data,
          PyVal.vDict [((("n1").data),
            PyVal.vDict [(("type").data, PyVal.vStr (("ss").data))])])]) =
        some [((("n1").data),
          PyVal.vDict [(("type").data, PyVal.vStr (("ss").data))])] :=
  ⟨rfl, rfl, rfl, rfl, rfl, rfl⟩

/-- C10: in `cmd_best`, a member of the group's `all` list that is not
informational and not a built-in sink, yet absent from the daemon's
global proxy listing, defaults to the empty dict, whose missing type is
not a reserved kind — so it is classified as a real node and kept in
the probe set. -/
theorem C10_missing_member_included :
    ∀ (allMembers : List Str) (proxyMap : List (Str × PyVal)) (n : Str),
      n ∈ allMembers → isInfoName n = false → SINK_NAMES.contains n = false →
      dictGet proxyMap n = none →
      n ∈ best_actual_nodes allMembers proxyMap := by
  intro ms pm n hmem hinfo hsink hget
  apply List.mem_filter.mpr
  refine ⟨?_, ?_⟩
  · refine List.mem_filter.mpr ⟨hmem, ?_⟩
    have hs : n ∉ SINK_NAMES := by simpa using hsink
    simp [hinfo, hs]
  · simp [hget]

theorem C10_missing_witness :
    (("NodeA").data) ∈ best_actual_nodes [("NodeA").data] [] :=
  C10_missing_member_included [("NodeA").data] [] (("NodeA").data)
    (by decide) (by decide) (by decide) rfl
